import Mathlib

/-!
Shallow embedding of the HIP3-Data-Analysis repository.

Floats of the Python source are modelled as rationals; NaN entries of a
pandas series are modelled as `none` in `Option ℚ`; a raised exception is
modelled as `Except.error` and a try/except wrapper as the corresponding
match.  Each definition is translated from the named source function.
-/

-- ## Generic pandas/numpy primitives

/-- pandas `Series.mean()` over the values of a column. -/
def listMean (l : List ℚ) : ℚ := l.sum / l.length

/-- pandas `Series.max()` on a non-empty column (0 returned on the empty
list, which the source never reaches). -/
def listMax : List ℚ → ℚ
  | [] => 0
  | x :: xs => xs.foldl max x

/-- pandas `Series.min()` on a non-empty column. -/
def listMin : List ℚ → ℚ
  | [] => 0
  | x :: xs => xs.foldl min x

/-- pandas `Series.median()`: middle element of the sorted values, or the
mean of the two middle elements for an even count. -/
def pandasMedian (l : List ℚ) : ℚ :=
  let s := List.insertionSort (fun a b => a ≤ b) l
  let n := s.length
  if n % 2 = 1 then s.getD (n / 2) 0
  else if n = 0 then 0
  else (s.getD (n / 2 - 1) 0 + s.getD (n / 2) 0) / 2

/-- numpy `np.sign` on a non-NaN float. -/
def qsign (x : ℚ) : ℚ := if x < 0 then -1 else if x = 0 then 0 else 1

/-- pandas `Series.diff()`: first entry NaN, then one-step differences. -/
def diffList (l : List ℚ) : List (Option ℚ) :=
  match l with
  | [] => []
  | x :: xs => none :: List.zipWith (fun b a => some (b - a)) xs (x :: xs)

-- ## src/src/options.py

/-- One row of a yfinance option-chain dataframe: columns strike,
openInterest, impliedVolatility (the two latter may be NaN). -/
structure OptionContract where
  strike : ℚ
  openInterest : Option ℚ
  impliedVolatility : Option ℚ
deriving DecidableEq

/-- `sorted(set(calls["strike"].tolist() + puts["strike"].tolist()))` in
`fetch_options_data`. -/
def strikes_of (calls puts : List OptionContract) : List ℚ :=
  List.insertionSort (fun a b => a ≤ b)
    ((calls.map (fun c => c.strike) ++ puts.map (fun p => p.strike)).dedup)

/-- `((strike - itm_calls["strike"]) * itm_calls["openInterest"].fillna(0)).sum()`
over `itm_calls = calls[calls["strike"] < strike]`. -/
def call_pain (calls : List OptionContract) (s : ℚ) : ℚ :=
  ((calls.filter (fun c => c.strike < s)).map
    (fun c => (s - c.strike) * (c.openInterest).getD 0)).sum

/-- `((itm_puts["strike"] - strike) * itm_puts["openInterest"].fillna(0)).sum()`
over `itm_puts = puts[puts["strike"] > strike]`. -/
def put_pain (puts : List OptionContract) (s : ℚ) : ℚ :=
  ((puts.filter (fun p => s < p.strike)).map
    (fun p => (p.strike - s) * (p.openInterest).getD 0)).sum

/-- `total_pain = call_pain + put_pain` at a candidate strike. -/
def total_pain (calls puts : List OptionContract) (s : ℚ) : ℚ :=
  call_pain calls s + put_pain puts s

/-- `total_pain < min_pain` where `min_pain` starts as `float("inf")`
(modelled by `none`). -/
def painLt (tp : ℚ) : Option ℚ → Bool
  | none => true
  | some m => decide (tp < m)

/-- The `for strike in strikes` loop of `fetch_options_data`, carrying
`max_pain_strike` and `min_pain`. -/
def maxPainLoop (calls puts : List OptionContract) :
    List ℚ → ℚ → Option ℚ → ℚ
  | [], best, _ => best
  | s :: rest, best, minPain =>
    if painLt (total_pain calls puts s) minPain then
      maxPainLoop calls puts rest s (some (total_pain calls puts s))
    else
      maxPainLoop calls puts rest best minPain

/-- The max-pain block of `fetch_options_data`: `None` when the strike set
is empty, otherwise the loop started at `strikes[len(strikes) // 2]` with
`min_pain = inf`. -/
def maxPainStrike (calls puts : List OptionContract) : Option ℚ :=
  let strikes := strikes_of calls puts
  if strikes.isEmpty then none
  else some (maxPainLoop calls puts strikes (strikes.getD (strikes.length / 2) 0) none)

/-- The ATM-IV block of `fetch_options_data`: mean implied volatility
(NaN filled with 0) of calls within 5 percent of spot; 0 when `spot <= 0`
or no such call exists. -/
def atm_iv_of (spot : ℚ) (calls : List OptionContract) : ℚ :=
  if 0 < spot then
    let atm_calls := calls.filter (fun c => abs (c.strike - spot) < spot * 0.05)
    if atm_calls.isEmpty then 0
    else listMean (atm_calls.map (fun c => (c.impliedVolatility).getD 0))
  else 0

/-- The 25-delta-skew block of `fetch_options_data`, returning
`(put_iv, call_iv, skew)`; all three stay 0 unless `spot > 0`. -/
def skewBlock (spot : ℚ) (calls puts : List OptionContract) : ℚ × ℚ × ℚ :=
  if 0 < spot then
    let otm_puts := puts.filter (fun p => p.strike < spot * 0.95)
    let otm_calls := calls.filter (fun c => spot * 1.05 < c.strike)
    let put_iv := if otm_puts.isEmpty then 0
      else listMean (otm_puts.map (fun p => (p.impliedVolatility).getD 0))
    let call_iv := if otm_calls.isEmpty then 0
      else listMean (otm_calls.map (fun c => (c.impliedVolatility).getD 0))
    (put_iv, call_iv, put_iv - call_iv)
  else (0, 0, 0)

/-- `tk.info` fields consulted for the spot price. -/
structure TickerInfo where
  currentPrice : Option ℚ
  regularMarketPrice : Option ℚ
  previousClose : Option ℚ

/-- The external world `fetch_options_data` observes after its retry loops:
the expiration list is `tk.options` (empty when falsy or failed), `chain` is
`None` when both `tk.option_chain` attempts raised, `histClose` is the last
close of `tk.history(period="1d")` (`none` on exception or empty), `info`
is `None` when `tk.info` raised. -/
structure OptionsWorld where
  expirations : List String
  chain : Option (List OptionContract × List OptionContract)
  histClose : Option ℚ
  info : Option TickerInfo

/-- Python `a or b` on an optional float: `None` and `0` are falsy. -/
def orFalsy (a : Option ℚ) (b : ℚ) : ℚ :=
  match a with
  | none => b
  | some v => if v = 0 then b else v

/-- The spot-price block of `fetch_options_data`: history close, then the
`info` fields chained by `or`, then the median call strike. -/
def spot_of (w : OptionsWorld) (calls : List OptionContract) : ℚ :=
  let s1 : ℚ := match w.histClose with
    | some c => c
    | none => 0
  let s2 : ℚ :=
    if s1 = 0 then
      match w.info with
      | some inf =>
          orFalsy inf.currentPrice
            (orFalsy inf.regularMarketPrice (orFalsy inf.previousClose 0))
      | none => 0
    else s1
  if s2 = 0 then
    if calls.isEmpty then 0 else pandasMedian (calls.map (fun c => c.strike))
  else s2

/-- The dictionary `fetch_options_data` returns. -/
structure OptionsResult where
  ticker : String
  expiry : String
  spot : ℚ
  max_pain : ℚ
  atm_iv : ℚ
  put_iv : ℚ
  call_iv : ℚ
  skew_25d : ℚ
  calls : List OptionContract
  puts : List OptionContract

/-- `fetch_options_data` (src/src/options.py lines 33-149).  The whole body
is wrapped in try/except returning `None`; the `world` argument is the
observed external state, `Except.error` when an unguarded exception is
raised inside the body. -/
def fetch_options_data (ticker : String) (world : Except Unit OptionsWorld) :
    Option OptionsResult :=
  match world with
  | .error _ => none
  | .ok w =>
    match w.expirations with
    | [] => none
    | nearest_expiry :: _ =>
      match w.chain with
      | none => none
      | some (calls, puts) =>
        if calls.isEmpty && puts.isEmpty then none
        else
          let spot := spot_of w calls
          match maxPainStrike calls puts with
          | none => none
          | some mp =>
            let sk := skewBlock spot calls puts
            some ⟨ticker, nearest_expiry, spot, mp, atm_iv_of spot calls,
                  sk.1, sk.2.1, sk.2.2, calls, puts⟩

-- ## src/src/utils.py and src/src/derivatives.py

/-- `extract_ticker` (src/src/utils.py): the part after the last colon. -/
def extract_ticker (symbol : String) : String :=
  if symbol.contains (':') then (symbol.splitOn (":")).getLastD symbol
  else symbol

/-- One row of the funding-history dataframe built by
`fetch_funding_history_uncached`: the timestamp as seconds since the epoch
and the funding rate. -/
structure FundingRow where
  time : ℚ
  funding_rate : ℚ
deriving DecidableEq

/-- The `DerivativesMetrics` dataclass (src/src/data_classes.py); the
estimated ratios are reals because `np.tanh` enters their computation. -/
structure DerivativesMetrics where
  ticker : String
  coin : String
  latest_funding_annualized : Option ℚ
  mean_funding_annualized : Option ℚ
  max_funding_annualized : Option ℚ
  min_funding_annualized : Option ℚ
  funding_comment : String
  estimated_long_ratio : ℝ
  estimated_short_ratio : ℝ

/-- `times.diff().dropna().dt.total_seconds() / 3600` after
`times = funding_df["time"].sort_values()`. -/
def fundingGapsHours (times : List ℚ) : List ℚ :=
  let s := List.insertionSort (fun a b => a ≤ b) times
  List.zipWith (fun a b => (b - a) / 3600) s (s.drop 1)

/-- The `interval_hours` inference of `compute_derivatives_metrics`. -/
def interval_hours_of (df : List FundingRow) : ℚ :=
  if 2 ≤ df.length then
    let diffs := fundingGapsHours (df.map (fun r => r.time))
    if diffs.length > 0 then pandasMedian diffs else 1
  else 1

/-- The `funding_comment` branch of `compute_derivatives_metrics`; the
interpolated percentage of the Python f-strings is elided, and the
`math.isfinite` guard cannot fail over the rationals. -/
def funding_comment_of (annualized_from_historical : ℚ) : String :=
  if annualized_from_historical > 0.5 then
    "Extremely high positive funding: crowded longs, correction risk."
  else if annualized_from_historical > 0.1 then
    "Moderately positive funding: bullish positioning."
  else if annualized_from_historical < -0.5 then
    "Deeply negative funding: shorts crowded, squeeze risk."
  else if annualized_from_historical < -0.1 then
    "Moderately negative funding: bearish skew."
  else
    "Funding near neutral: balanced positioning."

/-- `compute_derivatives_metrics` (src/src/derivatives.py lines 15-92). -/
noncomputable def compute_derivatives_metrics (coin : String)
    (funding_df : List FundingRow) : DerivativesMetrics :=
  let ticker := extract_ticker coin
  if funding_df.isEmpty then
    ⟨ticker, coin, none, none, none, none,
     "No funding data available.", 0.5, 0.5⟩
  else
    let interval_hours := interval_hours_of funding_df
    let annual_factor : ℚ := 24 * 365 / max interval_hours 0.1
    let annualized := funding_df.map (fun r => r.funding_rate * annual_factor)
    let mean_funding_rate := listMean (funding_df.map (fun r => r.funding_rate))
    let annualized_from_historical := mean_funding_rate * annual_factor
    let max_val := listMax annualized
    let min_val := listMin annualized
    let estimated_long_ratio : ℝ :=
      if 0.0000001 < abs mean_funding_rate then
        max 0.2 (min 0.8 (0.5 + Real.tanh ((mean_funding_rate : ℝ) * 5000) * 0.3))
      else 0.5
    ⟨ticker, coin, some annualized_from_historical,
     some annualized_from_historical, some max_val, some min_val,
     funding_comment_of annualized_from_historical,
     estimated_long_ratio, 1 - estimated_long_ratio⟩

-- ## src/src/api.py

/-- One element of the JSON array a `fundingHistory` request returns:
`none` in `time` models a missing or non-integer field (`KeyError` /
`TypeError`), `none` in `fundingRate` a value `float()` rejects. -/
structure RawFundingRow where
  time : Option ℤ
  fundingRate : Option ℚ

/-- `fetch_funding_history_uncached` (src/src/api.py lines 114-146).
`response` is the outcome of the wrapped `requests.post`: `Except.error`
models a raised `RequestException`, `Except.ok none` a response that is
not a (non-empty) list, and rows that raise during parsing are skipped.
The constant per-row `coin` column of the source dataframe is elided. -/
def fetch_funding_history_uncached (coin : String)
    (response : Except Unit (Option (List RawFundingRow))) : List FundingRow :=
  match response with
  | .error _ => []
  | .ok none => []
  | .ok (some data) =>
    data.filterMap (fun row =>
      match row.time, row.fundingRate with
      | some t, some fr => some ⟨(t : ℚ) / 1000, fr⟩
      | _, _ => none)

-- ## src/macro_panel.py

/-- The dataframe `yf.download` hands back: whether it is empty, and the
optional `Adj Close` / `Close` columns with possibly-NaN entries. -/
structure YfDownload where
  empty : Bool
  adjClose : Option (List (Option ℚ))
  close : Option (List (Option ℚ))

/-- `_pick_close` (src/macro_panel.py lines 48-53): prefer `Adj Close`,
fall back to `Close`, otherwise raise `ValueError`. -/
def pick_close (df : YfDownload) : Except String (List (Option ℚ)) :=
  match df.adjClose with
  | some s => .ok s
  | none =>
    match df.close with
    | some s => .ok s
    | none => .error ("Missing Close/Adj Close columns.")

/-- The per-label loop of `fetch_prices_strict` building the `out` dict;
an `Except.error` models the `RuntimeError` the source raises.  The final
`pd.concat`/column-relabelling/display-ordering over the resulting frame
is presentation and is not modelled. -/
def fetchPricesLoop (download : String → Option YfDownload) :
    List (String × String) → Except String (List (String × List (Option ℚ)))
  | [] => .ok []
  | (label, ticker) :: rest =>
    match download ticker with
    | none => .error ("No data for label=" ++ label ++ " using Yahoo ticker=" ++ ticker)
    | some df =>
      if df.empty then
        .error ("No data for label=" ++ label ++ " using Yahoo ticker=" ++ ticker)
      else
        match pick_close df with
        | .error e => .error e
        | .ok s =>
          if (s.filterMap id).isEmpty then
            .error ("All-NaN series for label=" ++ label ++ " using Yahoo ticker=" ++ ticker)
          else
            match fetchPricesLoop download rest with
            | .error e => .error e
            | .ok out => .ok ((label, s) :: out)

/-- `fetch_prices_strict` (src/macro_panel.py lines 56-95). -/
def fetch_prices_strict (panel : List (String × String))
    (download : String → Option YfDownload) :
    Except String (List (String × List (Option ℚ))) :=
  fetchPricesLoop download panel

-- ## src/ETF.py (flow streak, `fetch_and_process_data` lines 38-91)

/-- pandas `Series.replace(v, method="ffill")` on a possibly-NaN series,
as `pad_inplace` runs it: the carried value starts at the first element,
an entry equal to `some v` is overwritten with the carry, any other entry
(NaN included) becomes the new carry. -/
def padGo (v : ℚ) : Option ℚ → List (Option ℚ) → List (Option ℚ)
  | _, [] => []
  | val, y :: ys =>
    if y = some v then val :: padGo v val ys else y :: padGo v y ys

/-- `Series.replace(v, method="ffill")`. -/
def padReplace (v : ℚ) (l : List (Option ℚ)) : List (Option ℚ) :=
  match l with
  | [] => []
  | x :: xs => padGo v x (x :: xs)

/-- `Series.replace(v, method="bfill")`: the forward pass on the reversed
series. -/
def bfillReplace (v : ℚ) (l : List (Option ℚ)) : List (Option ℚ) :=
  (padReplace v l.reverse).reverse

/-- `Series.replace(v, w)` (plain value replacement). -/
def plainReplace (v w : ℚ) (l : List (Option ℚ)) : List (Option ℚ) :=
  l.map (fun x => if x = some v then some w else x)

/-- `df["Direction"] = np.sign(df["Close"].diff()).replace(0, method="ffill")`. -/
def directionOf (closes : List ℚ) : List (Option ℚ) :=
  padReplace 0 ((diffList closes).map (Option.map qsign))

/-- `df["Daily_Flow_Est"] = df["Close"] * df["Volume"] * df["Direction"]`. -/
def dailyFlowOf (closes volumes : List ℚ) : List (Option ℚ) :=
  List.zipWith (fun cv d => d.map (fun dd => cv.1 * cv.2 * dd))
    (closes.zip volumes) (directionOf closes)

/-- `df["Flow_Sign"]`: the sign of the daily flow with zeros replaced by
ffill, then bfill, then by 1. -/
def flowSignOf (closes volumes : List ℚ) : List (Option ℚ) :=
  plainReplace 0 1
    (bfillReplace 0 (padReplace 0 ((dailyFlowOf closes volumes).map (Option.map qsign))))

/-- The streak loop of `fetch_and_process_data`, carrying `current_sign`
(`none` for Python `None`) and `current_streak`; a NaN sign appends 0 and
resets the state. -/
def streakGo : Option ℚ → ℚ → List (Option ℚ) → List ℚ
  | _, _, [] => []
  | _, _, none :: rest => 0 :: streakGo none 0 rest
  | cur, k, some s :: rest =>
    if cur = some s then ((k + 1) * s) :: streakGo (some s) (k + 1) rest
    else (1 * s) :: streakGo (some s) 1 rest

/-- `df["Streak"]` as the loop computes it from the flow signs. -/
def streakList (l : List (Option ℚ)) : List ℚ :=
  streakGo none 0 l

-- ## src/src/technicals.py (`compute_rsi` lines 12-23)

/-- `delta.where(delta > 0, 0.0)`: the gain series (a NaN difference fails
the condition and becomes 0). -/
def gainsOf (series : List ℚ) : List ℚ :=
  (diffList series).map (fun d =>
    match d with
    | none => 0
    | some v => if 0 < v then v else 0)

/-- `-delta.where(delta < 0, 0.0)`: the loss series. -/
def lossesOf (series : List ℚ) : List ℚ :=
  (diffList series).map (fun d =>
    match d with
    | none => 0
    | some v => -(if v < 0 then v else 0))

/-- The running value of `Series.ewm(alpha, adjust=False).mean()` after the
first element: `y_t = (1 - alpha) * y_(t-1) + alpha * x_t`. -/
def ewmGo (alpha : ℚ) : ℚ → List ℚ → List ℚ
  | _, [] => []
  | y, x :: xs => ((1 - alpha) * y + alpha * x) :: ewmGo alpha ((1 - alpha) * y + alpha * x) xs

/-- `Series.ewm(alpha, adjust=False).mean()`: the first output equals the
first input. -/
def ewm (alpha : ℚ) : List ℚ → List ℚ
  | [] => []
  | x :: xs => x :: ewmGo alpha x xs

/-- `compute_rsi` (src/src/technicals.py lines 12-23): `none` models the
NaN produced through `avg_loss.replace(0, np.nan)`. -/
def compute_rsi (series : List ℚ) (period : ℕ) : List (Option ℚ) :=
  let alpha : ℚ := 1 / (period : ℚ)
  List.zipWith
    (fun g lo => if lo = 0 then none else some (100 - 100 / (1 + g / lo)))
    (ewm alpha (gainsOf series)) (ewm alpha (lossesOf series))

-- ## src/app.py (`fetch_macro_event_data` lines 1732-1756)

/-- pandas `Series.pct_change(periods)`: NaN for the first `periods` rows,
then `x_t / x_(t-periods) - 1`. -/
def pct_change (periods : ℕ) (l : List ℚ) : List (Option ℚ) :=
  (List.range l.length).map (fun i =>
    if periods ≤ i then some (l.getD i 0 / l.getD (i - periods) 0 - 1)
    else none)

/-- The per-series transform of `fetch_macro_event_data`: YoY percentage
change for every FRED series except FEDFUNDS, which passes through. -/
def macroEventTransform (s_id : String) (series : List ℚ) : List (Option ℚ) :=
  if s_id = "FEDFUNDS" then series.map some
  else (pct_change 12 series).map (Option.map (fun x => x * 100))

-- ## src/app.py (`extract_yes_probability` lines 1069-1088)

/-- A Python whitespace character, as `str.strip()` removes them (labels are
modelled at the character level because the lookup lowercases and strips). -/
def isPySpace (c : Char) : Bool :=
  c = ' ' || c = '\t' || c = '\n' || c = '\r' || c = (Char.ofNat 11) || c = (Char.ofNat 12)

/-- Python `str.strip()` on a label. -/
def pyStrip (s : List Char) : List Char :=
  ((s.dropWhile isPySpace).reverse.dropWhile isPySpace).reverse

/-- Lowercase an ASCII letter (Python `str.lower()` restricted to the ASCII
range the market labels use). -/
def asciiLower (c : Char) : Char :=
  if ('A' ≤ c && c ≤ 'Z') then Char.ofNat (c.toNat + 32) else c

/-- Python `str.lower()` on a label. -/
def pyLower (s : List Char) : List Char := s.map asciiLower

/-- `o.strip().lower() == "yes"` on a label. -/
def isYesLabel (o : List Char) : Bool :=
  pyLower (pyStrip o) = ['y', 'e', 's']

/-- The `for i, o in enumerate(outcomes)` loop: the first outcome whose
stripped, lowercased label is "yes" makes the function return the price at
that position (`none` models both NaN and Python `None`); an outer `none`
means the loop fell through. -/
def findYesGo : List (List Char) → List (Option ℚ) → Option (Option ℚ)
  | o :: os, p :: ps =>
    if isYesLabel o then some p else findYesGo os ps
  | _, _ => none

/-- `return fprices[0] if pd.notna(fprices[0]) else None` behind
`if fprices:`. -/
def firstPriceFallback : List (Option ℚ) → Option ℚ
  | [] => none
  | p :: _ => p

/-- `extract_yes_probability` (src/app.py lines 1069-1088), taking the
parsed outcome labels and the parsed prices (`none` = unparseable or NaN). -/
def extract_yes_probability (outcomes : List (List Char))
    (fprices : List (Option ℚ)) : Option ℚ :=
  if outcomes ≠ [] ∧ fprices ≠ [] ∧ outcomes.length = fprices.length then
    match findYesGo outcomes fprices with
    | some r => r
    | none => firstPriceFallback fprices
  else firstPriceFallback fprices

/-- The claim's reading of the fallback, for comparison: the first
parseable price in the list when one exists. -/
def firstParseablePrice (fprices : List (Option ℚ)) : Option ℚ :=
  (fprices.filterMap id).head?

/-- The amended behaviour of `extract_yes_probability`, written from the
amended claim: with non-empty outcomes matching the price list in length,
the price at the first "yes"-labelled position (which is `None` when that
price is NaN); otherwise the first listed price when it is non-NaN, `None`
when it is NaN or no price exists. -/
def specExtractYes (outcomes : List (List Char)) (fprices : List (Option ℚ)) :
    Option ℚ :=
  if outcomes ≠ [] ∧ outcomes.length = fprices.length ∧
      outcomes.any (fun o => isYesLabel o) then
    fprices.getD (outcomes.findIdx (fun o => isYesLabel o)) none
  else fprices.getD 0 none

-- ## src/macro_events.py (`pull_fomc_meetings` lines 199-228)

/-- A Python `datetime.date`. -/
structure SimpleDate where
  year : ℕ
  month : ℕ
  day : ℕ
deriving DecidableEq

/-- The Gregorian leap-year rule `datetime` uses. -/
def isLeapYear (y : ℕ) : Bool :=
  (y % 4 = 0 && y % 100 ≠ 0) || y % 400 = 0

/-- Days in a month of a given year. -/
def daysInMonth (y m : ℕ) : ℕ :=
  if m = 2 then (if isLeapYear y then 29 else 28)
  else if m = 4 ∨ m = 6 ∨ m = 9 ∨ m = 11 then 30
  else 31

/-- Whether `date(y, m, d)` succeeds (`datetime` accepts years 1..9999). -/
def dateValid (y m d : ℕ) : Bool :=
  1 ≤ y && y ≤ 9999 && 1 ≤ m && m ≤ 12 && 1 ≤ d && d ≤ daysInMonth y m

/-- `date(y, m, d)` under try/except ValueError: `none` when invalid. -/
def mkDate (y m d : ℕ) : Option SimpleDate :=
  if dateValid y m d then some ⟨y, m, d⟩ else none

/-- The date-range branch of `pull_fomc_meetings` (src/macro_events.py
lines 202-219): for a day line "d1-d2" under the month heading `mm` of
year `y`, the decision day appended to `meetings`, or `none` when the
`date` constructor raised and the entry was skipped. -/
def fomcRangeDecision (y mm d1 d2 : ℕ) : Option SimpleDate :=
  let em_ey : ℕ × ℕ :=
    if d2 < d1 then (if mm + 1 = 13 then (1, y + 1) else (mm + 1, y))
    else (mm, y)
  mkDate em_ey.2 em_ey.1 d2

-- ## Claim-side recurrence for Wilder smoothing (claim C5)

/-- The exponentially smoothed average of the claim, as a recurrence on
indices: value 0 is the first observation, then
`y_(n+1) = (1 - alpha) * y_n + alpha * x_(n+1)` (`adjust=False`). -/
def wilderAvg (alpha : ℚ) (x : ℕ → ℚ) : ℕ → ℚ
  | 0 => x 0
  | n + 1 => (1 - alpha) * wilderAvg alpha x n + alpha * x (n + 1)

-- # Theorems

-- ## Helper lemmas

theorem mkDate_valid (y m d : ℕ) (dt : SimpleDate) (h : mkDate y m d = some dt) :
    dateValid dt.year dt.month dt.day = true := by
  unfold mkDate at h
  by_cases hv : dateValid y m d = true
  · rw [if_pos hv] at h
    cases h
    exact hv
  · rw [if_neg hv] at h
    cases h

-- ## C10: FOMC date-range decision day

/-- Claim C10: for a parsed FOMC date range d1-d2 under a month heading,
the recorded decision day is day d2 of the same month when d2 >= d1, day
d2 of the following month when d2 < d1 (December wrapping to January of
the next year), and an invalid calendar date is skipped (`none`) rather
than raised; every recorded date is a valid calendar date. -/
theorem fomcRangeDecision_spec (y mm d1 d2 : ℕ) (hmm : 1 ≤ mm ∧ mm ≤ 12) :
    (d1 ≤ d2 → fomcRangeDecision y mm d1 d2 = mkDate y mm d2) ∧
    (d2 < d1 → mm ≤ 11 → fomcRangeDecision y mm d1 d2 = mkDate y (mm + 1) d2) ∧
    (d2 < d1 → mm = 12 → fomcRangeDecision y mm d1 d2 = mkDate (y + 1) 1 d2) ∧
    (∀ dt, fomcRangeDecision y mm d1 d2 = some dt →
      dateValid dt.year dt.month dt.day = true) := by
  refine ⟨?_, ?_, ?_, ?_⟩
  · intro h
    have hc : ¬ d2 < d1 := Nat.not_lt.mpr h
    simp only [fomcRangeDecision, if_neg hc]
  · intro h h11
    have hc : mm + 1 ≠ 13 := by omega
    simp only [fomcRangeDecision, if_pos h, if_neg hc]
  · intro h h12
    subst h12
    simp only [fomcRangeDecision, if_pos h]
    norm_num
  · intro dt h
    unfold fomcRangeDecision at h
    exact mkDate_valid _ _ _ _ h

/-- Witness for C10: the January 2025 range "31-1" rolls over to
February 1, 2025. -/
theorem fomcRangeDecision_spec_witness :
    fomcRangeDecision 2025 1 31 1 = some ⟨2025, 2, 1⟩ := by
  have h := (fomcRangeDecision_spec 2025 1 31 1 (by omega)).2.1 (by omega) (by omega)
  rw [h]
  decide

-- ## C3: error handling of the fetchers

/-- Claim C3 (amended): when the wrapped external call fails,
`fetch_funding_history_uncached` returns an empty dataframe and
`fetch_options_data` returns `None`; `fetch_prices_strict` however
propagates: a failed download for a panel entry raises a `RuntimeError`
instead of substituting a sentinel. -/
theorem fetcher_error_sentinels :
    (∀ coin days, fetch_funding_history_uncached coin (.error days) = []) ∧
    (∀ ticker, fetch_options_data ticker (.error ()) = none) ∧
    (∀ label ticker rest,
      fetch_prices_strict ((label, ticker) :: rest) (fun _ => none) =
        .error ("No data for label=" ++ label ++ " using Yahoo ticker=" ++ ticker)) := by
  refine ⟨fun _ _ => rfl, fun _ => rfl, fun _ _ _ => rfl⟩

/-- Counterexample for C3 as stated: on a failed download
`fetch_prices_strict` does not return an empty dataframe or a sentinel,
it propagates the `RuntimeError`. -/
theorem fetch_prices_strict_raises_cex :
    fetch_prices_strict [(("DXY" : String), ("DX-Y.NYB" : String))] (fun _ => none) =
      .error ("No data for label=DXY using Yahoo ticker=DX-Y.NYB") := by
  rfl

-- ## C8: extract_yes_probability

theorem findYesGo_eq (os : List (List Char)) :
    ∀ ps : List (Option ℚ), os.length = ps.length →
      findYesGo os ps =
        (if os.any (fun o => isYesLabel o) then
          some (ps.getD (os.findIdx (fun o => isYesLabel o)) none)
        else none) := by
  induction os with
  | nil =>
    intro ps _
    cases ps with
    | nil => rfl
    | cons p ps => rfl
  | cons o os ih =>
    intro ps hlen
    match ps with
    | [] => simp at hlen
    | p :: ps =>
      have hlen' : os.length = ps.length := by simpa using hlen
      by_cases hy : isYesLabel o
      · simp [findYesGo, hy, List.findIdx_cons]
      · simp only [findYesGo, if_neg hy, List.any_cons, List.findIdx_cons,
          hy, Bool.false_or, cond_false]
        rw [ih ps hlen']
        by_cases ha : os.any (fun o => isYesLabel o)
        · simp [ha]
        · simp [ha]

/-- Claim C8 (amended): `extract_yes_probability` returns the price at the
position of the first outcome whose trimmed, lowercased label is "yes"
(`None` when that price is NaN) whenever outcomes and prices are non-empty
lists of equal length containing such an outcome; otherwise it returns the
first listed price when it parses to a non-NaN float, and `None` when the
first price is NaN or unparseable or no price exists. -/
theorem extract_yes_probability_spec (outcomes : List (List Char))
    (fprices : List (Option ℚ)) :
    extract_yes_probability outcomes fprices = specExtractYes outcomes fprices := by
  unfold extract_yes_probability specExtractYes
  by_cases hcond : outcomes ≠ [] ∧ fprices ≠ [] ∧ outcomes.length = fprices.length
  · rw [if_pos hcond]
    obtain ⟨hne, hpne, hlen⟩ := hcond
    rw [findYesGo_eq outcomes fprices hlen]
    by_cases hy : outcomes.any (fun o => isYesLabel o)
    · rw [if_pos hy, if_pos ⟨hne, hlen, hy⟩]
    · rw [if_neg hy, if_neg (by simp [hy])]
      cases fprices with
      | nil => rfl
      | cons p ps => rfl
  · rw [if_neg hcond]
    have hno : ¬ (outcomes ≠ [] ∧ outcomes.length = fprices.length ∧
        outcomes.any (fun o => isYesLabel o)) := by
      intro h
      obtain ⟨h1, h2, _⟩ := h
      apply hcond
      refine ⟨h1, ?_, h2⟩
      intro hp
      rw [hp] at h2
      simp at h2
      exact h1 h2
    rw [if_neg hno]
    cases fprices with
    | nil => rfl
    | cons p ps => rfl

/-- Counterexample for C8 as stated: with no outcome labels and prices
`[NaN, 0.5]`, the first parseable price is 0.5, but the code returns the
first listed price (NaN, hence `None`), not the first parseable one. -/
theorem extract_yes_probability_cex :
    extract_yes_probability [] [none, some (1 / 2)] = none ∧
    firstParseablePrice [none, some (1 / 2)] = some (1 / 2) := by
  exact ⟨rfl, rfl⟩

-- ## C6: FRED YoY transform

/-- Claim C6: for a FRED series other than FEDFUNDS the reported value at
row i (for i >= 12) is the year-over-year percentage change
`(x_i / x_(i-12) - 1) * 100` over 12 row shifts; the FEDFUNDS series is
passed through unchanged. -/
theorem macroEventTransform_spec (s_id : String) (series : List ℚ) (i : ℕ)
    (hi : i < series.length) :
    (s_id ≠ "FEDFUNDS" → 12 ≤ i →
      (macroEventTransform s_id series)[i]? =
        some (some ((series.getD i 0 / series.getD (i - 12) 0 - 1) * 100))) ∧
    (macroEventTransform ("FEDFUNDS") series)[i]? = some (some (series.getD i 0)) := by
  constructor
  · intro hs h12
    simp only [macroEventTransform, if_neg hs, pct_change]
    rw [List.getElem?_map, List.getElem?_map, List.getElem?_range hi]
    simp [h12]
  · have hT : macroEventTransform ("FEDFUNDS") series = series.map some := by
      unfold macroEventTransform
      rw [if_pos rfl]
    rw [hT, List.getElem?_map, List.getElem?_eq_getElem hi]
    simp [List.getD_eq_getElem?_getD, List.getElem?_eq_getElem hi]

/-- Witness for C6: a 13-row series with `x_12 / x_0 = 1.1` reports 10
percent YoY at row 12, and a FEDFUNDS series passes through. -/
theorem macroEventTransform_spec_witness :
    (macroEventTransform ("CPIAUCSL") [100, 1, 2, 3, 4, 5, 6, 7, 8, 9, 10, 11, 110])[12]? =
      some (some 10) ∧
    (macroEventTransform ("FEDFUNDS") [4, 5])[1]? = some (some 5) := by
  constructor
  · have h := (macroEventTransform_spec ("CPIAUCSL")
      [100, 1, 2, 3, 4, 5, 6, 7, 8, 9, 10, 11, 110] 12 (by norm_num)).1
      (by decide) (by norm_num)
    rw [h]
    norm_num
  · have h := (macroEventTransform_spec ("FEDFUNDS") [4, 5] 1 (by norm_num)).2
    rw [h]
    rfl

-- ## C4: annualized funding metrics

theorem fundingGapsHours_length (times : List ℚ) :
    (fundingGapsHours times).length = times.length - 1 := by
  unfold fundingGapsHours
  rw [List.length_zipWith, List.length_drop]
  have hp := (List.perm_insertionSort (fun a b => a ≤ b) times).length_eq
  omega

theorem interval_hours_of_eq (df : List FundingRow) :
    interval_hours_of df =
      (if 2 ≤ df.length then
        pandasMedian (fundingGapsHours (df.map (fun r => r.time))) else 1) := by
  unfold interval_hours_of
  by_cases h2 : 2 ≤ df.length
  · rw [if_pos h2, if_pos h2, if_pos]
    rw [fundingGapsHours_length]
    simp only [List.length_map]
    omega
  · rw [if_neg h2, if_neg h2]

/-- Claim C4: on a non-empty funding dataframe both
`latest_funding_annualized` and `mean_funding_annualized` equal the mean
funding rate times the annualization factor `24*365 / max(interval_hours,
0.1)`, where `interval_hours` is the median gap in hours of the sorted
timestamps (1 when fewer than two rows); the max and min fields are the
maximum and minimum of the per-row rate times the same factor. -/
theorem derivatives_annualized_spec (coin : String) (df : List FundingRow)
    (h : df ≠ []) :
    ((compute_derivatives_metrics coin df).latest_funding_annualized =
      some (listMean (df.map (fun r => r.funding_rate)) *
        (24 * 365 / max (if 2 ≤ df.length then
          pandasMedian (fundingGapsHours (df.map (fun r => r.time))) else 1) 0.1))) ∧
    ((compute_derivatives_metrics coin df).mean_funding_annualized =
      some (listMean (df.map (fun r => r.funding_rate)) *
        (24 * 365 / max (if 2 ≤ df.length then
          pandasMedian (fundingGapsHours (df.map (fun r => r.time))) else 1) 0.1))) ∧
    ((compute_derivatives_metrics coin df).max_funding_annualized =
      some (listMax (df.map (fun r => r.funding_rate *
        (24 * 365 / max (if 2 ≤ df.length then
          pandasMedian (fundingGapsHours (df.map (fun r => r.time))) else 1) 0.1))))) ∧
    ((compute_derivatives_metrics coin df).min_funding_annualized =
      some (listMin (df.map (fun r => r.funding_rate *
        (24 * 365 / max (if 2 ≤ df.length then
          pandasMedian (fundingGapsHours (df.map (fun r => r.time))) else 1) 0.1))))) := by
  have hne : ¬ df.isEmpty = true := by
    intro hh
    exact h (List.isEmpty_iff.mp hh)
  unfold compute_derivatives_metrics
  rw [if_neg hne]
  simp only [interval_hours_of_eq]
  exact ⟨trivial, trivial, trivial, trivial⟩

/-- Witness for C4 at a two-row dataframe with a one-hour gap: the factor
is 8760 and the four fields evaluate accordingly. -/
theorem derivatives_annualized_spec_witness :
    ((compute_derivatives_metrics ("BTC")
        [⟨0, 1 / 100⟩, ⟨3600, 1 / 50⟩]).latest_funding_annualized = some (657 / 5)) ∧
    ((compute_derivatives_metrics ("BTC")
        [⟨0, 1 / 100⟩, ⟨3600, 1 / 50⟩]).mean_funding_annualized = some (657 / 5)) ∧
    ((compute_derivatives_metrics ("BTC")
        [⟨0, 1 / 100⟩, ⟨3600, 1 / 50⟩]).max_funding_annualized = some (876 / 5)) ∧
    ((compute_derivatives_metrics ("BTC")
        [⟨0, 1 / 100⟩, ⟨3600, 1 / 50⟩]).min_funding_annualized = some (438 / 5)) := by
  have h := derivatives_annualized_spec ("BTC") [⟨0, 1 / 100⟩, ⟨3600, 1 / 50⟩] (by simp)
  refine ⟨?_, ?_, ?_, ?_⟩
  · rw [h.1]
    norm_num [listMean, pandasMedian, fundingGapsHours, List.insertionSort,
      List.orderedInsert]
  · rw [h.2.1]
    norm_num [listMean, pandasMedian, fundingGapsHours, List.insertionSort,
      List.orderedInsert]
  · rw [h.2.2.1]
    norm_num [listMax, pandasMedian, fundingGapsHours, List.insertionSort,
      List.orderedInsert]
  · rw [h.2.2.2]
    norm_num [listMin, pandasMedian, fundingGapsHours, List.insertionSort,
      List.orderedInsert]

-- ## C9: long/short ratio invariants

theorem clamp_bounds (x : ℝ) :
    (0.2 : ℝ) ≤ max 0.2 (min 0.8 x) ∧ max 0.2 (min 0.8 x) ≤ 0.8 :=
  ⟨le_max_left _ _, max_le (by norm_num) (min_le_left _ _)⟩

/-- Claim C9: for every coin and funding dataframe the estimated long and
short ratios sum to 1 and the long ratio lies in [0.2, 0.8]; it is exactly
0.5 on the empty dataframe and whenever the absolute mean funding rate is
at most 1e-7. -/
theorem derivatives_long_short_invariant (coin : String) (df : List FundingRow) :
    ((compute_derivatives_metrics coin df).estimated_long_ratio +
      (compute_derivatives_metrics coin df).estimated_short_ratio = 1) ∧
    ((0.2 : ℝ) ≤ (compute_derivatives_metrics coin df).estimated_long_ratio) ∧
    ((compute_derivatives_metrics coin df).estimated_long_ratio ≤ (0.8 : ℝ)) ∧
    (df = [] → (compute_derivatives_metrics coin df).estimated_long_ratio = 0.5) ∧
    (abs (listMean (df.map (fun r => r.funding_rate))) ≤ 0.0000001 →
      (compute_derivatives_metrics coin df).estimated_long_ratio = 0.5) := by
  by_cases hdf : df.isEmpty = true
  · have hnil : df = [] := List.isEmpty_iff.mp hdf
    subst hnil
    refine ⟨by norm_num [compute_derivatives_metrics], ?_, ?_, fun _ => rfl, fun _ => rfl⟩
    · norm_num [compute_derivatives_metrics]
    · norm_num [compute_derivatives_metrics]
  · unfold compute_derivatives_metrics
    rw [if_neg hdf]
    by_cases hm : (0.0000001 : ℚ) < abs (listMean (df.map (fun r => r.funding_rate)))
    · simp only [if_pos hm]
      refine ⟨by ring, (clamp_bounds _).1, (clamp_bounds _).2, ?_, ?_⟩
      · intro hnil
        exact absurd (by simp [hnil]) hdf
      · intro hsm
        exact absurd hm (not_lt.mpr hsm)
    · simp only [if_neg hm]
      refine ⟨by norm_num, by norm_num, by norm_num, fun _ => trivial, fun _ => trivial⟩

-- ## Destructuring fetch_options_data

theorem fetch_options_data_fields (ticker : String) (world : Except Unit OptionsWorld)
    (res : OptionsResult) (h : fetch_options_data ticker world = some res) :
    (maxPainStrike res.calls res.puts = some res.max_pain) ∧
    (res.put_iv = (skewBlock res.spot res.calls res.puts).1) ∧
    (res.call_iv = (skewBlock res.spot res.calls res.puts).2.1) ∧
    (res.skew_25d = (skewBlock res.spot res.calls res.puts).2.2) ∧
    (res.calls ≠ [] ∨ res.puts ≠ []) := by
  unfold fetch_options_data at h
  split at h
  · exact absurd h (by simp)
  · split at h
    · exact absurd h (by simp)
    · split at h
      · exact absurd h (by simp)
      · split at h
        · exact absurd h (by simp)
        · split at h
          · exact absurd h (by simp)
          · rename_i mp hmp
            injection h with h2
            subst h2
            refine ⟨hmp, rfl, rfl, rfl, ?_⟩
            dsimp only
            by_contra hboth
            push_neg at hboth
            obtain ⟨hc2, hp2⟩ := hboth
            rw [hc2, hp2] at hmp
            simp [maxPainStrike, strikes_of] at hmp

-- ## C7: 25-delta skew

/-- Claim C7: whenever `fetch_options_data` returns a result with positive
spot, its `skew_25d` equals the OTM put IV (mean implied volatility of
puts with strike below 0.95*spot) minus the OTM call IV (mean implied
volatility of calls with strike above 1.05*spot), a side with no such
contracts contributing 0. -/
theorem skew_25d_spec (ticker : String) (world : Except Unit OptionsWorld)
    (res : OptionsResult) (h : fetch_options_data ticker world = some res)
    (hspot : 0 < res.spot) :
    res.skew_25d =
      (if res.puts.filter (fun p => p.strike < res.spot * 0.95) = [] then 0
       else listMean ((res.puts.filter (fun p => p.strike < res.spot * 0.95)).map
         (fun p => (p.impliedVolatility).getD 0))) -
      (if res.calls.filter (fun c => res.spot * 1.05 < c.strike) = [] then 0
       else listMean ((res.calls.filter (fun c => res.spot * 1.05 < c.strike)).map
         (fun c => (c.impliedVolatility).getD 0))) := by
  have hf := (fetch_options_data_fields ticker world res h).2.2.2.1
  rw [hf]
  unfold skewBlock
  rw [if_pos hspot]
  simp only [List.isEmpty_iff]

/-- Witness for C7 at a one-call/one-put chain with spot 100: the skew is
0.5 - 0.3 = 0.2. -/
theorem skew_25d_spec_witness :
    (OptionsResult.mk ("VOY") ("e1") 100 90 0 (1 / 2) (3 / 10) (1 / 5)
        [⟨110, none, some (3 / 10)⟩] [⟨90, none, some (1 / 2)⟩]).skew_25d =
      (if (OptionsResult.mk ("VOY") ("e1") 100 90 0 (1 / 2) (3 / 10) (1 / 5)
            [⟨110, none, some (3 / 10)⟩] [⟨90, none, some (1 / 2)⟩]).puts.filter
            (fun p => p.strike <
              (OptionsResult.mk ("VOY") ("e1") 100 90 0 (1 / 2) (3 / 10) (1 / 5)
                [⟨110, none, some (3 / 10)⟩] [⟨90, none, some (1 / 2)⟩]).spot * 0.95) = []
        then 0
        else listMean (((OptionsResult.mk ("VOY") ("e1") 100 90 0 (1 / 2) (3 / 10) (1 / 5)
            [⟨110, none, some (3 / 10)⟩] [⟨90, none, some (1 / 2)⟩]).puts.filter
            (fun p => p.strike <
              (OptionsResult.mk ("VOY") ("e1") 100 90 0 (1 / 2) (3 / 10) (1 / 5)
                [⟨110, none, some (3 / 10)⟩] [⟨90, none, some (1 / 2)⟩]).spot * 0.95)).map
          (fun p => (p.impliedVolatility).getD 0))) -
      (if (OptionsResult.mk ("VOY") ("e1") 100 90 0 (1 / 2) (3 / 10) (1 / 5)
            [⟨110, none, some (3 / 10)⟩] [⟨90, none, some (1 / 2)⟩]).calls.filter
            (fun c => (OptionsResult.mk ("VOY") ("e1") 100 90 0 (1 / 2) (3 / 10) (1 / 5)
              [⟨110, none, some (3 / 10)⟩] [⟨90, none, some (1 / 2)⟩]).spot * 1.05 < c.strike) = []
        then 0
        else listMean (((OptionsResult.mk ("VOY") ("e1") 100 90 0 (1 / 2) (3 / 10) (1 / 5)
            [⟨110, none, some (3 / 10)⟩] [⟨90, none, some (1 / 2)⟩]).calls.filter
            (fun c => (OptionsResult.mk ("VOY") ("e1") 100 90 0 (1 / 2) (3 / 10) (1 / 5)
              [⟨110, none, some (3 / 10)⟩] [⟨90, none, some (1 / 2)⟩]).spot * 1.05 < c.strike)).map
          (fun c => (c.impliedVolatility).getD 0))) :=
  skew_25d_spec ("VOY")
    (.ok ⟨["e1"], some ([⟨110, none, some (3 / 10)⟩], [⟨90, none, some (1 / 2)⟩]),
      some 100, none⟩)
    (OptionsResult.mk ("VOY") ("e1") 100 90 0 (1 / 2) (3 / 10) (1 / 5)
      [⟨110, none, some (3 / 10)⟩] [⟨90, none, some (1 / 2)⟩])
    (by norm_num [fetch_options_data, spot_of, orFalsy, maxPainStrike, strikes_of,
      maxPainLoop, painLt, total_pain, call_pain, put_pain, atm_iv_of, skewBlock,
      listMean, List.insertionSort, List.orderedInsert, List.dedup, List.pwFilter])
    (by norm_num)

-- ## C1: max pain

theorem argmin_foldl (pain : ℚ → ℚ) :
    ∀ (l : List ℚ) (init : ℚ), List.Sorted (fun a b => a ≤ b) (init :: l) →
      ((l.foldl (fun b s => if pain s < pain b then s else b) init) ∈ init :: l) ∧
      (∀ t ∈ init :: l,
        pain (l.foldl (fun b s => if pain s < pain b then s else b) init) ≤ pain t) ∧
      (∀ t ∈ init :: l,
        pain t = pain (l.foldl (fun b s => if pain s < pain b then s else b) init) →
          (l.foldl (fun b s => if pain s < pain b then s else b) init) ≤ t) := by
  intro l
  induction l with
  | nil =>
    intro init _
    refine ⟨List.mem_cons_self _ _, ?_, ?_⟩
    · intro t ht
      have : t = init := by simpa using ht
      subst this
      exact le_refl _
    · intro t ht _
      have : t = init := by simpa using ht
      subst this
      exact le_refl _
  | cons s l ih =>
    intro init hsorted
    obtain ⟨hinit_all, hsorted'⟩ := List.sorted_cons.mp hsorted
    obtain ⟨hs_all, hsorted''⟩ := List.sorted_cons.mp hsorted'
    have hinit_s : init ≤ s := hinit_all s (List.mem_cons_self _ _)
    by_cases hc : pain s < pain init
    · -- the head of the fold moves to s
      have hfold : (s :: l).foldl (fun b u => if pain u < pain b then u else b) init =
          l.foldl (fun b u => if pain u < pain b then u else b) s := by
        rw [List.foldl_cons, if_pos hc]
      have hsorted1 : List.Sorted (fun a b => a ≤ b) (s :: l) := hsorted'
      obtain ⟨ihmem, ihmin, ihfirst⟩ := ih s hsorted1
      rw [hfold]
      refine ⟨?_, ?_, ?_⟩
      · exact List.mem_cons_of_mem init ihmem
      · intro t ht
        rcases List.mem_cons.mp ht with h1 | h2
        · subst h1
          exact le_of_lt (lt_of_le_of_lt (ihmin s (List.mem_cons_self _ _)) hc)
        · exact ihmin t h2
      · intro t ht hpt
        rcases List.mem_cons.mp ht with h1 | h2
        · exfalso
          subst h1
          have hle : pain (l.foldl (fun b u => if pain u < pain b then u else b) s) ≤ pain s :=
            ihmin s (List.mem_cons_self _ _)
          rw [← hpt] at hle
          exact absurd (lt_of_le_of_lt hle hc) (lt_irrefl _)
        · exact ihfirst t h2 hpt
    · -- the head stays init
      have hfold : (s :: l).foldl (fun b u => if pain u < pain b then u else b) init =
          l.foldl (fun b u => if pain u < pain b then u else b) init := by
        rw [List.foldl_cons, if_neg hc]
      have hsorted1 : List.Sorted (fun a b => a ≤ b) (init :: l) := by
        rw [List.sorted_cons]
        exact ⟨fun x hx => hinit_all x (List.mem_cons_of_mem _ hx), hsorted''⟩
      obtain ⟨ihmem, ihmin, ihfirst⟩ := ih init hsorted1
      rw [hfold]
      have hps : pain init ≤ pain s := not_lt.mp hc
      refine ⟨?_, ?_, ?_⟩
      · rcases List.mem_cons.mp ihmem with h1 | h2
        · rw [h1]
          exact List.mem_cons_self _ _
        · exact List.mem_cons_of_mem _ (List.mem_cons_of_mem _ h2)
      · intro t ht
        rcases List.mem_cons.mp ht with h1 | h2
        · rw [h1]
          exact ihmin init (List.mem_cons_self _ _)
        · rcases List.mem_cons.mp h2 with h3 | h4
          · rw [h3]
            exact le_trans (ihmin init (List.mem_cons_self _ _)) hps
          · exact ihmin t (List.mem_cons_of_mem _ h4)
      · intro t ht hpt
        rcases List.mem_cons.mp ht with h1 | h2
        · rw [h1] at hpt ⊢
          exact ihfirst init (List.mem_cons_self _ _) hpt
        · rcases List.mem_cons.mp h2 with h3 | h4
          · rw [h3] at hpt ⊢
            -- pain s = pain of the fold result; conclude via the init column
            have hri : pain (l.foldl (fun b u => if pain u < pain b then u else b) init) ≤
                pain init := ihmin init (List.mem_cons_self _ _)
            have hir : pain init =
                pain (l.foldl (fun b u => if pain u < pain b then u else b) init) := by
              have h5 : pain init ≤
                  pain (l.foldl (fun b u => if pain u < pain b then u else b) init) := by
                rw [← hpt]
                exact hps
              exact le_antisymm h5 hri
            exact le_trans (ihfirst init (List.mem_cons_self _ _) hir) hinit_s
          · exact ihfirst t (List.mem_cons_of_mem _ h4) hpt

theorem maxPainLoop_eq_foldl (calls puts : List OptionContract) :
    ∀ (l : List ℚ) (best : ℚ),
      maxPainLoop calls puts l best (some (total_pain calls puts best)) =
        l.foldl (fun b s => if total_pain calls puts s < total_pain calls puts b then s else b)
          best := by
  intro l
  induction l with
  | nil => intro best; rfl
  | cons s l ih =>
    intro best
    rw [List.foldl_cons]
    unfold maxPainLoop
    simp only [painLt, decide_eq_true_eq]
    by_cases hlt : total_pain calls puts s < total_pain calls puts best
    · rw [if_pos hlt, if_pos hlt]
      exact ih s
    · rw [if_neg hlt, if_neg hlt]
      exact ih best

theorem maxPainStrike_eq (calls puts : List OptionContract) (s0 : ℚ) (rest : List ℚ)
    (h : strikes_of calls puts = s0 :: rest) :
    maxPainStrike calls puts =
      some (rest.foldl
        (fun b s => if total_pain calls puts s < total_pain calls puts b then s else b) s0) := by
  unfold maxPainStrike
  rw [h]
  rw [if_neg (by simp)]
  congr 1
  have hstep : maxPainLoop calls puts (s0 :: rest) ((s0 :: rest).getD ((s0 :: rest).length / 2) 0)
      none = maxPainLoop calls puts rest s0 (some (total_pain calls puts s0)) := rfl
  rw [hstep]
  exact maxPainLoop_eq_foldl calls puts rest s0

theorem mem_strikes_of (calls puts : List OptionContract) (x : ℚ) :
    x ∈ strikes_of calls puts ↔
      x ∈ calls.map (fun c => c.strike) ++ puts.map (fun p => p.strike) := by
  unfold strikes_of
  rw [(List.perm_insertionSort _ _).mem_iff, List.mem_dedup]

theorem sorted_strikes_of (calls puts : List OptionContract) :
    List.Sorted (fun a b => a ≤ b) (strikes_of calls puts) :=
  List.sorted_insertionSort _ _

/-- Claim C1: the max_pain value returned by `fetch_options_data` is a
strike from the union of call and put strikes minimizing the aggregate
option-buyer payoff (calls with strike below the candidate contribute
`(s - k) * openInterest`, puts above it `(k - s) * openInterest`, missing
open interest counting 0), and among equally minimal strikes the lowest is
returned. -/
theorem max_pain_spec (ticker : String) (world : Except Unit OptionsWorld)
    (res : OptionsResult) (h : fetch_options_data ticker world = some res) :
    (res.max_pain ∈ res.calls.map (fun c => c.strike) ++ res.puts.map (fun p => p.strike)) ∧
    (∀ t ∈ res.calls.map (fun c => c.strike) ++ res.puts.map (fun p => p.strike),
      total_pain res.calls res.puts res.max_pain ≤ total_pain res.calls res.puts t) ∧
    (∀ t ∈ res.calls.map (fun c => c.strike) ++ res.puts.map (fun p => p.strike),
      total_pain res.calls res.puts t = total_pain res.calls res.puts res.max_pain →
        res.max_pain ≤ t) := by
  have hmp := (fetch_options_data_fields ticker world res h).1
  rcases hS : strikes_of res.calls res.puts with _ | ⟨s0, rest⟩
  · unfold maxPainStrike at hmp
    rw [hS] at hmp
    simp at hmp
  · have heq := maxPainStrike_eq res.calls res.puts s0 rest hS
    rw [heq] at hmp
    injection hmp with hval
    have hsorted : List.Sorted (fun a b => a ≤ b) (s0 :: rest) := by
      rw [← hS]
      exact sorted_strikes_of res.calls res.puts
    obtain ⟨m1, m2, m3⟩ := argmin_foldl (total_pain res.calls res.puts) rest s0 hsorted
    have hmem_iff : ∀ x : ℚ, x ∈ s0 :: rest ↔
        x ∈ res.calls.map (fun c => c.strike) ++ res.puts.map (fun p => p.strike) := by
      intro x
      rw [← hS]
      exact mem_strikes_of res.calls res.puts x
    refine ⟨?_, ?_, ?_⟩
    · rw [hval] at m1
      exact (hmem_iff res.max_pain).mp m1
    · intro t ht
      rw [hval] at m2
      exact m2 t ((hmem_iff t).mpr ht)
    · intro t ht hpt
      rw [hval] at m3
      exact m3 t ((hmem_iff t).mpr ht) hpt

/-- Witness for C1: on a chain with strikes 100, 110 (calls) and 90 (put),
strikes 90 and 100 tie at zero pain and the lowest, 90, is returned. -/
theorem max_pain_spec_witness :
    ((OptionsResult.mk ("QQQ") ("e2") 100 90 0 0 0 0
        [⟨100, some 10, none⟩, ⟨110, some 20, none⟩] [⟨90, some 30, none⟩]).max_pain ∈
      (OptionsResult.mk ("QQQ") ("e2") 100 90 0 0 0 0
        [⟨100, some 10, none⟩, ⟨110, some 20, none⟩] [⟨90, some 30, none⟩]).calls.map
          (fun c => c.strike) ++
      (OptionsResult.mk ("QQQ") ("e2") 100 90 0 0 0 0
        [⟨100, some 10, none⟩, ⟨110, some 20, none⟩] [⟨90, some 30, none⟩]).puts.map
          (fun p => p.strike)) ∧
    (∀ t ∈ (OptionsResult.mk ("QQQ") ("e2") 100 90 0 0 0 0
        [⟨100, some 10, none⟩, ⟨110, some 20, none⟩] [⟨90, some 30, none⟩]).calls.map
          (fun c => c.strike) ++
      (OptionsResult.mk ("QQQ") ("e2") 100 90 0 0 0 0
        [⟨100, some 10, none⟩, ⟨110, some 20, none⟩] [⟨90, some 30, none⟩]).puts.map
          (fun p => p.strike),
      total_pain
        (OptionsResult.mk ("QQQ") ("e2") 100 90 0 0 0 0
          [⟨100, some 10, none⟩, ⟨110, some 20, none⟩] [⟨90, some 30, none⟩]).calls
        (OptionsResult.mk ("QQQ") ("e2") 100 90 0 0 0 0
          [⟨100, some 10, none⟩, ⟨110, some 20, none⟩] [⟨90, some 30, none⟩]).puts
        (OptionsResult.mk ("QQQ") ("e2") 100 90 0 0 0 0
          [⟨100, some 10, none⟩, ⟨110, some 20, none⟩] [⟨90, some 30, none⟩]).max_pain ≤
      total_pain
        (OptionsResult.mk ("QQQ") ("e2") 100 90 0 0 0 0
          [⟨100, some 10, none⟩, ⟨110, some 20, none⟩] [⟨90, some 30, none⟩]).calls
        (OptionsResult.mk ("QQQ") ("e2") 100 90 0 0 0 0
          [⟨100, some 10, none⟩, ⟨110, some 20, none⟩] [⟨90, some 30, none⟩]).puts t) ∧
    (∀ t ∈ (OptionsResult.mk ("QQQ") ("e2") 100 90 0 0 0 0
        [⟨100, some 10, none⟩, ⟨110, some 20, none⟩] [⟨90, some 30, none⟩]).calls.map
          (fun c => c.strike) ++
      (OptionsResult.mk ("QQQ") ("e2") 100 90 0 0 0 0
        [⟨100, some 10, none⟩, ⟨110, some 20, none⟩] [⟨90, some 30, none⟩]).puts.map
          (fun p => p.strike),
      total_pain
        (OptionsResult.mk ("QQQ") ("e2") 100 90 0 0 0 0
          [⟨100, some 10, none⟩, ⟨110, some 20, none⟩] [⟨90, some 30, none⟩]).calls
        (OptionsResult.mk ("QQQ") ("e2") 100 90 0 0 0 0
          [⟨100, some 10, none⟩, ⟨110, some 20, none⟩] [⟨90, some 30, none⟩]).puts t =
      total_pain
        (OptionsResult.mk ("QQQ") ("e2") 100 90 0 0 0 0
          [⟨100, some 10, none⟩, ⟨110, some 20, none⟩] [⟨90, some 30, none⟩]).calls
        (OptionsResult.mk ("QQQ") ("e2") 100 90 0 0 0 0
          [⟨100, some 10, none⟩, ⟨110, some 20, none⟩] [⟨90, some 30, none⟩]).puts
        (OptionsResult.mk ("QQQ") ("e2") 100 90 0 0 0 0
          [⟨100, some 10, none⟩, ⟨110, some 20, none⟩] [⟨90, some 30, none⟩]).max_pain →
      (OptionsResult.mk ("QQQ") ("e2") 100 90 0 0 0 0
        [⟨100, some 10, none⟩, ⟨110, some 20, none⟩] [⟨90, some 30, none⟩]).max_pain ≤ t) :=
  max_pain_spec ("QQQ")
    (.ok ⟨["e2"], some ([⟨100, some 10, none⟩, ⟨110, some 20, none⟩],
      [⟨90, some 30, none⟩]), some 100, none⟩)
    (OptionsResult.mk ("QQQ") ("e2") 100 90 0 0 0 0
      [⟨100, some 10, none⟩, ⟨110, some 20, none⟩] [⟨90, some 30, none⟩])
    (by norm_num [fetch_options_data, spot_of, orFalsy, maxPainStrike, strikes_of,
      maxPainLoop, painLt, total_pain, call_pain, put_pain, atm_iv_of, skewBlock,
      listMean, List.insertionSort, List.orderedInsert, List.dedup, List.pwFilter])

-- ## C5: Wilder RSI

theorem diffList_length (l : List ℚ) : (diffList l).length = l.length := by
  cases l with
  | nil => rfl
  | cons x xs =>
    simp only [diffList, List.length_cons, List.length_zipWith]
    omega

theorem gainsOf_length (series : List ℚ) : (gainsOf series).length = series.length := by
  simp [gainsOf, diffList_length]

theorem lossesOf_length (series : List ℚ) : (lossesOf series).length = series.length := by
  simp [lossesOf, diffList_length]

theorem ewmGo_length (alpha : ℚ) : ∀ (l : List ℚ) (y : ℚ),
    (ewmGo alpha y l).length = l.length := by
  intro l
  induction l with
  | nil => intro y; rfl
  | cons x xs ih =>
    intro y
    simp only [ewmGo, List.length_cons]
    rw [ih]

theorem ewm_length (alpha : ℚ) (l : List ℚ) : (ewm alpha l).length = l.length := by
  cases l with
  | nil => rfl
  | cons x xs =>
    simp only [ewm, List.length_cons]
    rw [ewmGo_length]

theorem wilderAvg_shift (alpha : ℚ) (f g : ℕ → ℚ)
    (h0 : g 0 = (1 - alpha) * f 0 + alpha * f 1)
    (hs : ∀ n, g (n + 1) = f (n + 2)) :
    ∀ k, wilderAvg alpha g k = wilderAvg alpha f (k + 1) := by
  intro k
  induction k with
  | zero => simpa [wilderAvg] using h0
  | succ n ihn =>
    calc wilderAvg alpha g (n + 1)
        = (1 - alpha) * wilderAvg alpha g n + alpha * g (n + 1) := rfl
      _ = (1 - alpha) * wilderAvg alpha f (n + 1) + alpha * f (n + 2) := by rw [ihn, hs n]
      _ = wilderAvg alpha f (n + 2) := rfl

theorem ewmGo_getElem (alpha : ℚ) :
    ∀ (l : List ℚ) (y : ℚ) (i : ℕ), i < l.length →
      (ewmGo alpha y l)[i]? =
        some (wilderAvg alpha (fun n => if n = 0 then y else l.getD (n - 1) 0) (i + 1)) := by
  intro l
  induction l with
  | nil =>
    intro y i hi
    simp at hi
  | cons x xs ih =>
    intro y i hi
    cases i with
    | zero =>
      simp only [ewmGo, List.getElem?_cons_zero]
      congr 1
    | succ j =>
      have hj : j < xs.length := by simpa using hi
      simp only [ewmGo, List.getElem?_cons_succ]
      rw [ih ((1 - alpha) * y + alpha * x) j hj]
      congr 1
      exact wilderAvg_shift alpha
        (fun n => if n = 0 then y else (x :: xs).getD (n - 1) 0)
        (fun n => if n = 0 then (1 - alpha) * y + alpha * x else xs.getD (n - 1) 0)
        (by simp) (fun n => by simp) (j + 1)

theorem ewm_getElem (alpha : ℚ) (l : List ℚ) (i : ℕ) (hi : i < l.length) :
    (ewm alpha l)[i]? = some (wilderAvg alpha (fun n => l.getD n 0) i) := by
  cases l with
  | nil => simp at hi
  | cons x xs =>
    cases i with
    | zero => simp [ewm, wilderAvg]
    | succ j =>
      have hj : j < xs.length := by simpa using hi
      simp only [ewm, List.getElem?_cons_succ]
      rw [ewmGo_getElem alpha xs x j hj]
      congr 2
      funext n
      cases n with
      | zero => simp
      | succ m => simp

theorem getElem?_zipWith_some {α β γ : Type} (f : α → β → γ) :
    ∀ (as : List α) (bs : List β) (i : ℕ) (a : α) (b : β),
      as[i]? = some a → bs[i]? = some b →
      (List.zipWith f as bs)[i]? = some (f a b) := by
  intro as
  induction as with
  | nil =>
    intro bs i a b ha
    simp at ha
  | cons x xs ih =>
    intro bs i a b ha hb
    cases bs with
    | nil => simp at hb
    | cons y ys =>
      cases i with
      | zero =>
        simp only [List.getElem?_cons_zero, Option.some.injEq] at ha hb
        simp [List.zipWith_cons_cons, ha, hb]
      | succ j =>
        simp only [List.getElem?_cons_succ] at ha hb
        simp only [List.zipWith_cons_cons, List.getElem?_cons_succ]
        exact ih ys j a b ha hb

/-- Claim C5: `compute_rsi` returns Wilder RSI: at every index the value is
`100 - 100/(1 + RS)` with RS the ratio of the exponentially smoothed
average gain to the exponentially smoothed average loss of one-step price
differences, both smoothed by the recurrence with `alpha = 1/period`
(`adjust=False`); the value is NaN where the smoothed loss is 0. -/
theorem compute_rsi_spec (series : List ℚ) (period : ℕ) (hp : 0 < period)
    (i : ℕ) (hi : i < series.length) :
    (compute_rsi series period)[i]? =
      some (if wilderAvg (1 / (period : ℚ)) (fun n => (lossesOf series).getD n 0) i = 0 then
        none
      else some (100 - 100 / (1 +
        wilderAvg (1 / (period : ℚ)) (fun n => (gainsOf series).getD n 0) i /
        wilderAvg (1 / (period : ℚ)) (fun n => (lossesOf series).getD n 0) i))) := by
  have hgl : i < (gainsOf series).length := by rw [gainsOf_length]; exact hi
  have hll : i < (lossesOf series).length := by rw [lossesOf_length]; exact hi
  have hg := ewm_getElem (1 / (period : ℚ)) (gainsOf series) i hgl
  have hl := ewm_getElem (1 / (period : ℚ)) (lossesOf series) i hll
  have he := getElem?_zipWith_some
    (fun g lo => if lo = (0 : ℚ) then (none : Option ℚ)
      else some (100 - 100 / (1 + g / lo)))
    (ewm (1 / (period : ℚ)) (gainsOf series)) (ewm (1 / (period : ℚ)) (lossesOf series))
    i _ _ hg hl
  exact he

/-- Witness for C5 at the reference series [1, 2, 1] with period 2: one
gain then one loss give smoothed averages 1/4 and 1/2, RS = 1/2 and
RSI = 100/3. -/
theorem compute_rsi_spec_witness :
    (compute_rsi [1, 2, 1] 2)[2]? = some (some (100 / 3)) := by
  have h := compute_rsi_spec [1, 2, 1] 2 (by norm_num) 2 (by norm_num)
  rw [h]
  norm_num [wilderAvg, gainsOf, lossesOf, diffList, qsign]

-- ## C2: ETF flow streak

theorem takeWhile_append_singleton {α : Type} (p : α → Bool) (A : List α) (x : α) :
    (A ++ [x]).takeWhile p =
      if (A.takeWhile p).length = A.length then A ++ [x].takeWhile p
      else A.takeWhile p := by
  induction A with
  | nil => simp
  | cons a as ih =>
    by_cases hp : p a = true
    · by_cases hlen : (as.takeWhile p).length = as.length
      · simp [List.takeWhile_cons, hp, hlen, ih]
      · simp [List.takeWhile_cons, hp, hlen, ih]
    · simp [List.takeWhile_cons, hp]

theorem streakGo_cons_none (cur : Option ℚ) (k : ℚ) (rest : List (Option ℚ)) :
    streakGo cur k (none :: rest) = 0 :: streakGo none 0 rest := rfl

theorem streakGo_cons_same (t k : ℚ) (rest : List (Option ℚ)) :
    streakGo (some t) k (some t :: rest) =
      ((k + 1) * t) :: streakGo (some t) (k + 1) rest := by
  simp [streakGo]

theorem streakGo_cons_diff (cur : Option ℚ) (t k : ℚ) (rest : List (Option ℚ))
    (h : ¬ cur = some t) :
    streakGo cur k (some t :: rest) = (1 * t) :: streakGo (some t) 1 rest := by
  simp only [streakGo]
  rw [if_neg h]

theorem streakGo_getElem :
    ∀ (l : List (Option ℚ)) (cur : Option ℚ) (k : ℚ) (i : ℕ) (s : ℚ),
      l[i]? = some (some s) →
      (streakGo cur k l)[i]? =
        some (s * ((((l.take (i + 1)).reverse.takeWhile
            (fun x => decide (x = some s))).length : ℚ) +
          (if ((l.take (i + 1)).reverse.takeWhile
              (fun x => decide (x = some s))).length = i + 1 ∧ cur = some s
            then k else 0))) := by
  intro l
  induction l with
  | nil =>
    intro cur k i s hx
    simp at hx
  | cons x rest ih =>
    intro cur k i s hx
    cases i with
    | zero =>
      have hx0 : x = some s := by simpa using hx
      subst hx0
      by_cases hcur : cur = some s
      · subst hcur
        rw [streakGo_cons_same, List.getElem?_cons_zero]
        simp
        ring
      · rw [streakGo_cons_diff _ _ _ _ hcur, List.getElem?_cons_zero]
        simp [hcur]
    | succ j =>
      have hx' : rest[j]? = some (some s) := by simpa using hx
      have hj : j < rest.length := by
        by_contra hc
        push_neg at hc
        rw [List.getElem?_eq_none hc] at hx'
        cases hx'
      have hlenA : ((rest.take (j + 1)).reverse).length = j + 1 := by
        rw [List.length_reverse, List.length_take]
        omega
      have htake : ((x :: rest).take (j + 1 + 1)).reverse =
          (rest.take (j + 1)).reverse ++ [x] := by
        rw [List.take_succ_cons, List.reverse_cons]
      have hL_le : (((rest.take (j + 1)).reverse).takeWhile
          (fun y => decide (y = some s))).length ≤ j + 1 := by
        have h0 : (((rest.take (j + 1)).reverse).takeWhile
            (fun y => decide (y = some s))).length ≤
            ((rest.take (j + 1)).reverse).length :=
          (List.takeWhile_prefix _).length_le
        rw [hlenA] at h0
        exact h0
      rw [htake, takeWhile_append_singleton, hlenA]
      cases x with
      | none =>
        rw [streakGo_cons_none, List.getElem?_cons_succ, ih none 0 j s hx']
        rw [show (([none] : List (Option ℚ)).takeWhile
            (fun y => decide (y = some s))) = [] from by simp]
        rw [if_neg (show ¬((((rest.take (j + 1)).reverse).takeWhile
            (fun y => decide (y = some s))).length = j + 1 ∧
            (none : Option ℚ) = some s) from by rintro ⟨_, h2⟩; cases h2)]
        by_cases hall : (((rest.take (j + 1)).reverse).takeWhile
            (fun y => decide (y = some s))).length = j + 1
        · rw [if_pos hall, List.append_nil, hlenA, hall]
          rw [if_neg (show ¬(j + 1 = j + 1 + 1 ∧ cur = some s) from by
            rintro ⟨h1, _⟩; omega)]
        · rw [if_neg hall]
          rw [if_neg (show ¬((((rest.take (j + 1)).reverse).takeWhile
              (fun y => decide (y = some s))).length = j + 1 + 1 ∧ cur = some s) from by
            rintro ⟨h1, _⟩; omega)]
      | some t =>
        by_cases hts : t = s
        · subst hts
          rw [show (([some t] : List (Option ℚ)).takeWhile
              (fun y => decide (y = some t))) = [some t] from by simp]
          have hlap : ((rest.take (j + 1)).reverse ++ [some t]).length = j + 1 + 1 := by
            rw [List.length_append, hlenA]
            rfl
          by_cases hcur : cur = some t
          · subst hcur
            rw [streakGo_cons_same, List.getElem?_cons_succ, ih (some t) (k + 1) j t hx']
            by_cases hall : (((rest.take (j + 1)).reverse).takeWhile
                (fun y => decide (y = some t))).length = j + 1
            · rw [if_pos (show (((rest.take (j + 1)).reverse).takeWhile
                  (fun y => decide (y = some t))).length = j + 1 ∧
                  (some t : Option ℚ) = some t from ⟨hall, rfl⟩)]
              rw [if_pos hall, hall, hlap]
              rw [if_pos (show j + 1 + 1 = j + 1 + 1 ∧ (some t : Option ℚ) = some t from
                ⟨rfl, rfl⟩)]
              push_cast
              ring
            · rw [if_neg (show ¬((((rest.take (j + 1)).reverse).takeWhile
                  (fun y => decide (y = some t))).length = j + 1 ∧
                  (some t : Option ℚ) = some t) from by rintro ⟨h1, _⟩; exact hall h1)]
              rw [if_neg hall]
              rw [if_neg (show ¬((((rest.take (j + 1)).reverse).takeWhile
                  (fun y => decide (y = some t))).length = j + 1 + 1 ∧
                  (some t : Option ℚ) = some t) from by rintro ⟨h1, _⟩; omega)]
          · rw [streakGo_cons_diff _ _ _ _ hcur, List.getElem?_cons_succ,
              ih (some t) 1 j t hx']
            by_cases hall : (((rest.take (j + 1)).reverse).takeWhile
                (fun y => decide (y = some t))).length = j + 1
            · rw [if_pos (show (((rest.take (j + 1)).reverse).takeWhile
                  (fun y => decide (y = some t))).length = j + 1 ∧
                  (some t : Option ℚ) = some t from ⟨hall, rfl⟩)]
              rw [if_pos hall, hall, hlap]
              rw [if_neg (show ¬(j + 1 + 1 = j + 1 + 1 ∧ cur = some t) from by
                rintro ⟨_, h2⟩; exact hcur h2)]
              push_cast
              ring
            · rw [if_neg (show ¬((((rest.take (j + 1)).reverse).takeWhile
                  (fun y => decide (y = some t))).length = j + 1 ∧
                  (some t : Option ℚ) = some t) from by rintro ⟨h1, _⟩; exact hall h1)]
              rw [if_neg hall]
              rw [if_neg (show ¬((((rest.take (j + 1)).reverse).takeWhile
                  (fun y => decide (y = some t))).length = j + 1 + 1 ∧ cur = some t) from by
                rintro ⟨h1, _⟩; omega)]
        · rw [show (([some t] : List (Option ℚ)).takeWhile
              (fun y => decide (y = some s))) = [] from by simp [hts]]
          have hcurstep : ∀ (k0 : ℚ), (streakGo cur k0 (some t :: rest))[j + 1]? =
              (streakGo (some t) (if cur = some t then k0 + 1 else 1) rest)[j]? := by
            intro k0
            by_cases hcur : cur = some t
            · subst hcur
              rw [streakGo_cons_same, if_pos rfl, List.getElem?_cons_succ]
            · rw [streakGo_cons_diff _ _ _ _ hcur, if_neg hcur, List.getElem?_cons_succ]
          rw [hcurstep k, ih (some t) _ j s hx']
          rw [if_neg (show ¬((((rest.take (j + 1)).reverse).takeWhile
              (fun y => decide (y = some s))).length = j + 1 ∧
              (some t : Option ℚ) = some s) from by
            rintro ⟨_, h2⟩; exact hts (Option.some.inj h2))]
          by_cases hall : (((rest.take (j + 1)).reverse).takeWhile
              (fun y => decide (y = some s))).length = j + 1
          · rw [if_pos hall, List.append_nil, hlenA, hall]
            rw [if_neg (show ¬(j + 1 = j + 1 + 1 ∧ cur = some s) from by
              rintro ⟨h1, _⟩; omega)]
          · rw [if_neg hall]
            rw [if_neg (show ¬((((rest.take (j + 1)).reverse).takeWhile
                (fun y => decide (y = some s))).length = j + 1 + 1 ∧ cur = some s) from by
              rintro ⟨h1, _⟩; omega)]

/-- Claim C2: with the flow sign defined as the sign of
Close*Volume*Direction, zeros replaced by the previous day's sign, then
the next day's, then +1, the Streak at a day with flow sign s equals s
times the length of the maximal run of consecutive days with that same
flow sign ending there; in particular it resets to s*1 on the first day
whose flow sign differs from the previous day's. -/
theorem flow_streak_spec (closes volumes : List ℚ) (i : ℕ) (s : ℚ)
    (hs : (flowSignOf closes volumes)[i]? = some (some s)) :
    ((streakList (flowSignOf closes volumes))[i]? =
      some (s * ((((flowSignOf closes volumes).take (i + 1)).reverse.takeWhile
        (fun x => decide (x = some s))).length : ℚ))) ∧
    (∀ j x, i = j + 1 → (flowSignOf closes volumes)[j]? = some x → x ≠ some s →
      (streakList (flowSignOf closes volumes))[i]? = some (s * 1)) := by
  have hmain := streakGo_getElem (flowSignOf closes volumes) none 0 i s hs
  rw [if_neg (by rintro ⟨_, h2⟩; cases h2)] at hmain
  constructor
  · unfold streakList
    rw [hmain]
    norm_num
  · intro j x hij hx hxs
    subst hij
    unfold streakList
    rw [hmain]
    have hlen1 : (((flowSignOf closes volumes).take (j + 1 + 1)).reverse.takeWhile
        (fun y => decide (y = some s))).length = 1 := by
      rw [List.take_succ, List.take_succ, hs, hx]
      simp only [Option.toList_some]
      have hrev : ((((flowSignOf closes volumes).take j) ++ [x]) ++ [some s]).reverse =
          some s :: x :: ((flowSignOf closes volumes).take j).reverse := by
        simp
      rw [hrev]
      simp [List.takeWhile_cons, hxs]
    rw [hlen1]
    norm_num

/-- Witness for C2 on closes [1, 2, 1, 1/2, 1] with unit volumes: day 2
has flow sign -1 after a +1 day, so the streak resets to -1 there. -/
theorem flow_streak_spec_witness :
    (streakList (flowSignOf [1, 2, 1, (1 : ℚ) / 2, 1] [1, 1, 1, 1, 1]))[2]? =
      some ((-1 : ℚ)) := by
  have h := (flow_streak_spec [1, 2, 1, (1 : ℚ) / 2, 1] [1, 1, 1, 1, 1] 2 (-1)
    (by norm_num +decide [flowSignOf, dailyFlowOf, directionOf, diffList, qsign,
      padReplace, padGo, bfillReplace, plainReplace])).2 1 (some 1) rfl
    (by norm_num +decide [flowSignOf, dailyFlowOf, directionOf, diffList, qsign,
      padReplace, padGo, bfillReplace, plainReplace])
    (by norm_num)
  rw [h]
  norm_num
